import Mathlib

/-!
Verification of the OSS-Fuzz `infra/bisector.py` draft against its design
specification.  Python strings are embedded as `List Char`, raw process
output as `List Nat` (bytes), and the filesystem as explicit lists of
paths.  External collaborators (git, the helper module, the filesystem)
are supplied as explicit environment records, so every function of the
script becomes a total, executable Lean definition.
-/

namespace Bisector

/-- Python strings, embedded as lists of characters. -/
abbrev PyStr := List Char

/-- Raw process output, embedded as lists of byte values. -/
abbrev Bytes := List Nat

/-- Character list of a Lean string literal. -/
def chars (s : String) : PyStr := s.toList

/-- Python `s.strip(c)` for a single character `c`: removes every leading
and trailing occurrence of `c`. -/
def pyStripChar (c : Char) (s : PyStr) : PyStr :=
  ((s.dropWhile (· == c)).reverse.dropWhile (· == c)).reverse

/-- Python `needle in hay` substring test. -/
def isInfixB (needle hay : PyStr) : Bool :=
  hay.tails.any (fun t => needle.isPrefixOf t)

/-- Bytes of a Lean string literal (ascii input expected). -/
def asciiOf (s : String) : Bytes := (chars s).map Char.toNat

/-- Whether every byte is valid ascii, as checked by `bytes.decode('ascii')`. -/
def asciiOK (bs : Bytes) : Bool := bs.all (fun b => decide (b < 128))

/-- The Python exceptions the script can raise. -/
inductive PyExc where
  | valueError
  | fileNotFoundError
  | fileExistsError
  | unicodeDecodeError
  | calledProcessError
deriving DecidableEq

/-- Python `bytes.decode('ascii')`: succeeds on pure-ascii bytes, raises
`UnicodeDecodeError` otherwise. -/
def pyDecodeAscii (bs : Bytes) : Except PyExc PyStr :=
  if asciiOK bs then .ok (bs.map Char.ofNat) else .error .unicodeDecodeError

/-- Auxiliary loop of `pyReadlines`, accumulating the current line reversed. -/
def readlinesAux : PyStr → PyStr → List PyStr
  | [], acc => if acc = [] then [] else [acc.reverse]
  | c :: rest, acc =>
    if c = '\n' then (acc.reverse ++ ['\n']) :: readlinesAux rest []
    else readlinesAux rest (c :: acc)

/-- Python `fp.readlines()`: splits the text after every newline, each line
keeping its trailing newline character. -/
def pyReadlines (s : PyStr) : List PyStr := readlinesAux s []

/-- Auxiliary loop of `pySplitChar`, accumulating the current field reversed. -/
def splitCharAux (sep : Char) : PyStr → PyStr → List PyStr
  | [], acc => [acc.reverse]
  | c :: rest, acc =>
    if c = sep then acc.reverse :: splitCharAux sep rest []
    else splitCharAux sep rest (c :: acc)

/-- Python `s.split(sep)` for a single-character separator: splits at every
occurrence, keeping empty fields. -/
def pySplitChar (sep : Char) (s : PyStr) : List PyStr := splitCharAux sep s []

/-! ### The bisection engine (modelled from the spec)

The search loop is absent from the source: `main` stops at the
`# Begin bisection` comment and `bisection_commit` is a docstring-only stub,
so the engine of spec §4.3 and the `midpoint` operation of spec §4.1 are
modelled here over a linear commit range.  Commits between `old` and `new`
are identified with their topological index along the ancestry path, so a
commit is a `Nat` and the ancestry distance between `low` and `high` is
`high - low`. -/

/-- The oracle's judgment for one commit (spec §3 `Verdict`). -/
inductive Verdict where
  | bugPresent
  | bugAbsent
  | inconclusive
deriving DecidableEq

/-- Errors of the modelled repository-handle operations. -/
inductive EngineError where
  | emptyRange
deriving DecidableEq

/-- Modelled from the spec: `bisection_commit` in the source is a
docstring-only stub, so `midpoint` follows spec §4.1 — the commit
topologically halfway between `low` and `high` along the linear range,
with `EmptyRangeError` once no commit lies strictly between them. -/
def midpoint (low high : Nat) : Except EngineError Nat :=
  if high - low < 2 then .error .emptyRange else .ok ((low + high) / 2)

/-- Terminal outcome of one engine run: the collapsed bracket together with
the number of oracle invocations, or an abort on an inconclusive verdict. -/
inductive RunResult where
  | resolved (low high calls : Nat)
  | aborted (calls : Nat)
deriving DecidableEq

/-- Modelled from the spec: the `Searching` loop of spec §4.3 is absent from
the source, so it is modelled here.  While `midpoint` succeeds the engine
evaluates the midpoint and narrows: `BugPresent` moves `high` down,
`BugAbsent` moves `low` up; once `midpoint` fails with `EmptyRangeError`
the run is `Resolved` at the bracket `(low, high)`.  An `inconclusive`
verdict aborts (the retry policy never fires for the total two-valued
oracles considered here).  `calls` counts oracle invocations. -/
def searchLoop (oracle : Nat → Verdict) (low high calls : Nat) : RunResult :=
  if _h : high - low < 2 then .resolved low high calls
  else
    match oracle ((low + high) / 2) with
    | .bugPresent => searchLoop oracle low ((low + high) / 2) (calls + 1)
    | .bugAbsent => searchLoop oracle ((low + high) / 2) high (calls + 1)
    | .inconclusive => .aborted (calls + 1)
termination_by high - low
decreasing_by
  · omega
  · omega

/-- Direction of the search (spec §4.3): looking for the commit that
introduced the bug, or for the one that fixed it. -/
inductive SearchDirection where
  | introduced
  | fixed

/-- The commit a resolved run reports (spec §4.3): `high` (first bad) when
searching for the introduction, `low` (last good) when searching for the
fix boundary. -/
def resolvedCommit (dir : SearchDirection) : RunResult → Option Nat
  | .resolved low high _ =>
    match dir with
    | .introduced => some high
    | .fixed => some low
  | .aborted _ => none

/-! ### Filesystem model, `remove` and `clone_repo_local`

Paths are component lists; the filesystem is the list of existing file
paths and the list of existing directory paths. -/

/-- A filesystem path, as its list of components. -/
abbrev Path := List PyStr

/-- The visible filesystem state: which file paths and directory paths exist. -/
structure FS where
  files : List Path
  dirs : List Path
deriving DecidableEq

/-- Python `os.path.isfile`. -/
def isfile (fs : FS) (p : Path) : Bool := decide (p ∈ fs.files)

/-- Python `os.path.isdir`. -/
def isdir (fs : FS) (p : Path) : Bool := decide (p ∈ fs.dirs)

/-- `remove(path)` of bisector.py: `os.remove` for a file, `shutil.rmtree`
(the directory and everything under it) for a directory, `ValueError`
otherwise. -/
def remove (fs : FS) (p : Path) : Except PyExc FS :=
  if isfile fs p then
    .ok { fs with files := fs.files.filter (fun q => !decide (q = p)) }
  else if isdir fs p then
    .ok { files := fs.files.filter (fun q => !p.isPrefixOf q),
          dirs := fs.dirs.filter (fun q => !p.isPrefixOf q) }
  else .error .valueError

/-- Python `os.mkdir`: raises `FileExistsError` when the path already
exists, otherwise records the new directory. -/
def mkdir (fs : FS) (p : Path) : Except PyExc FS :=
  if isfile fs p || isdir fs p then .error .fileExistsError
  else .ok { fs with dirs := p :: fs.dirs }

/-- The fixed scratch location `LOCAL_GIT_DIR = 'tmp_git'`, as a path. -/
def tmpGitPath : Path := [chars "tmp_git"]

/-- Outcome of the external `git clone <repo>` run by `run_command_in_tmp`
via `subprocess.check_call`: whether it exits zero, and which file and
directory paths it creates under the scratch directory. -/
structure CloneEnv where
  cloneOk : PyStr → Bool
  cloneFiles : PyStr → List Path
  cloneDirs : PyStr → List Path

/-- The `try: remove(LOCAL_GIT_DIR) except ValueError: pass` prelude of
`clone_repo_local`: the scratch path is removed when present, a missing
path is ignored. -/
def cleanupScratch (fs : FS) : FS :=
  match remove fs tmpGitPath with
  | .ok f => f
  | .error _ => fs

/-- `clone_repo_local(repo_name)` of bisector.py: try `remove(LOCAL_GIT_DIR)`
swallowing `ValueError`, `os.mkdir(LOCAL_GIT_DIR)`, then
`run_command_in_tmp(['git', 'clone', repo_name])`, whose `check_call`
raises `CalledProcessError` exactly when the clone command fails. -/
def clone_repo_local (env : CloneEnv) (repo_name : PyStr) (fs : FS) : Except PyExc FS :=
  match mkdir (cleanupScratch fs) tmpGitPath with
  | .error e => .error e
  | .ok fs2 =>
    if env.cloneOk repo_name then
      .ok { files := env.cloneFiles repo_name ++ fs2.files,
            dirs := env.cloneDirs repo_name ++ fs2.dirs }
    else .error .calledProcessError

/-! ### Process execution, `run_command_in_repo`, `commit_exists` and the
commit-SHA validation of `main` -/

/-- The external world seen by `run_command_in_repo`: which directories
exist (for `os.chdir`), and for each command run in a working directory
the bytes it writes to stdout, the bytes it writes to stderr, and its
exit status.  `ancestor` is the repository's true ancestry relation —
recorded here because it is a fact about the cloned repository, although
the script never queries it. -/
structure GitEnv where
  dirs : PyStr → Bool
  stdout : List PyStr → PyStr → Bytes
  stderrOut : List PyStr → PyStr → Bytes
  exitCode : List PyStr → PyStr → Nat
  ancestor : PyStr → PyStr → Bool

/-- The working-copy directory `LOCAL_GIT_DIR + '/' + project_name`. -/
def repoDir (project_name : PyStr) : PyStr := chars "tmp_git" ++ '/' :: project_name

/-- `run_command_in_repo(command, project_name)` of bisector.py, with the
current working directory threaded explicitly.  Mirrors the source order:
`os.getcwd()`; `os.chdir` into the working copy (`FileNotFoundError` when
absent); `Popen(command, stdout=PIPE)` — only stdout is piped, so
`communicate()` yields `err = None` and the process's stderr and exit
status are discarded; `os.chdir` back; decode and newline-strip stdout
(`err` is `None`, so its decode branch is skipped).  Returns the
`(out, err)` pair and the final working directory. -/
def run_command_in_repo (env : GitEnv) (command : List PyStr) (project_name cwd : PyStr) :
    Except PyExc ((PyStr × Option PyStr) × PyStr) :=
  if env.dirs (repoDir project_name) then
    match pyDecodeAscii (env.stdout command (repoDir project_name)) with
    | .ok s => .ok ((pyStripChar '\n' s, none), cwd)
    | .error e => .error e
  else .error .fileNotFoundError

/-- The command `['git', 'branch', '--contains', commit]`. -/
def branchContainsCmd (commit : PyStr) : List PyStr :=
  [chars "git", chars "branch", chars "--contains", commit]

/-- `commit_exists(commit, project_name)` of bisector.py: an all-space
commit is rejected up front; otherwise the output of
`git branch --contains` decides — the git error markers or an empty
output (the CPython `out is ''` identity test coincides with emptiness
here, since the empty decode result and the literal are the interned
empty string) mean the commit is missing. -/
def commit_exists (env : GitEnv) (commit project_name cwd : PyStr) : Except PyExc Bool :=
  if pyStripChar ' ' commit = [] then .ok false
  else
    match run_command_in_repo env (branchContainsCmd commit) project_name cwd with
    | .error e => .error e
    | .ok ((out, _err), _cwd) =>
      if isInfixB (chars "error: no such commit") out
          || isInfixB (chars "error: malformed object name") out
          || out.isEmpty then .ok false
      else .ok true

/-- Outcome of the commit-SHA validation block of `main` (lines 96–104):
which missing commit it reported (printing and returning exit code 1), or
success, after which control falls through to `# Begin bisection`. -/
inductive ValidateOutcome where
  | unknownNew
  | unknownOld
  | valid
deriving DecidableEq

/-- The commit-SHA validation block of `main`: `commit_exists` on
`commit_new` first, then on `commit_old`; each failure reports that
commit; no ancestry query of any kind is made. -/
def validate_commits (env : GitEnv) (commit_new commit_old project_name cwd : PyStr) :
    Except PyExc ValidateOutcome :=
  match commit_exists env commit_new project_name cwd with
  | .error e => .error e
  | .ok false => .ok .unknownNew
  | .ok true =>
    match commit_exists env commit_old project_name cwd with
    | .error e => .error e
    | .ok false => .ok .unknownOld
    | .ok true => .ok .valid

/-! ### `infer_main_repo` -/

/-- The helper module consumed by `infer_main_repo`:
`_check_project_exists(project_name)` and the text behind
`_get_dockerfile_path(project_name)` (the helper module itself is outside
this repository slice, so it is an oracle here). -/
structure InferEnv where
  projectExists : PyStr → Bool
  dockerfile : PyStr → PyStr

/-- The two exceptions `infer_main_repo` can raise. -/
inductive InferError where
  | projectNotFound
  | noRepoFound
deriving DecidableEq

/-- The substring `'/' + str(project_name) + '.git'` searched for in each
Dockerfile token. -/
def repoNeedle (project_name : PyStr) : PyStr := '/' :: (project_name ++ chars ".git")

/-- The Dockerfile tokens in the order the source scans them: lines of
`readlines()` top to bottom, each split on single spaces left to right. -/
def dockerTokens (text : PyStr) : List PyStr :=
  ((pyReadlines text).map (pySplitChar ' ')).flatten

/-- The nested `for r in fp.readlines(): for part_command in r.split(' ')`
loops with an early `return` scan exactly the flattened token list in
order, so the returned token is the first match of that list. -/
def findRepoToken (text project_name : PyStr) : Option PyStr :=
  (dockerTokens text).find? (fun tok => isInfixB (repoNeedle project_name) tok)

/-- `infer_main_repo(project_name)` of bisector.py. -/
def infer_main_repo (env : InferEnv) (project_name : PyStr) : Except InferError PyStr :=
  if env.projectExists project_name then
    match findRepoToken (env.dockerfile project_name) project_name with
    | some tok => .ok tok
    | none => .error .noRepoFound
  else .error .projectNotFound

/-! ### Concrete environments used as witnesses and counterexamples -/

/-- A monotonic oracle on the range `0..8` with boundary `3`: commits up to
`3` lack the bug, commits from `4` on exhibit it. -/
def oracleEx (i : Nat) : Verdict :=
  if i ≤ 3 then .bugAbsent else .bugPresent

/-- A repository environment realizable as an ordinary git clone with one
merge: the commits `aaa` and `bbb` sit on the two merged side branches of
`master`, so `git branch --contains` prints `  master` (git's two-space
listing) for either of them, both existence checks pass, and yet neither
commit is an ancestor of the other. -/
def envNoAncestor : GitEnv where
  dirs := fun _ => true
  stdout := fun _ _ => asciiOf "  master"
  stderrOut := fun _ _ => []
  exitCode := fun _ _ => 0
  ancestor := fun _ _ => false

/-- A repository environment in which only the commit `bbb` is known: the
`git branch --contains bbb` query prints a branch, every other query
prints nothing. -/
def envOnlyNew : GitEnv where
  dirs := fun _ => true
  stdout := fun cmd _ => if cmd = branchContainsCmd (chars "bbb") then asciiOf "master" else []
  stderrOut := fun _ _ => []
  exitCode := fun _ _ => 0
  ancestor := fun _ _ => true

/-- A repository environment for an unknown ref: git prints the error to
stderr (which the script does not capture), leaves stdout empty and exits
nonzero. -/
def envBadRef : GitEnv where
  dirs := fun _ => true
  stdout := fun _ _ => []
  stderrOut := fun _ _ => asciiOf "error: malformed object name zzz"
  exitCode := fun _ _ => 129
  ancestor := fun _ _ => false

/-- A repository environment whose command prints `ok` on stdout, prints
`boom` on stderr and exits with status `1`. -/
def envLoud : GitEnv where
  dirs := fun _ => true
  stdout := fun _ _ => asciiOf "ok"
  stderrOut := fun _ _ => asciiOf "boom"
  exitCode := fun _ _ => 1
  ancestor := fun _ _ => false

/-- A filesystem in which the scratch directory `tmp_git` already exists
and is non-empty: it holds the leftover file `tmp_git/junk.txt`. -/
def fsEx : FS where
  files := [[chars "tmp_git", chars "junk.txt"]]
  dirs := [[], [chars "tmp_git"]]

/-- A clone environment whose `git clone` succeeds, creating
`tmp_git/repo` with the single file `tmp_git/repo/README`. -/
def cloneEnvEx : CloneEnv where
  cloneOk := fun _ => true
  cloneFiles := fun _ => [[chars "tmp_git", chars "repo", chars "README"]]
  cloneDirs := fun _ => [[chars "tmp_git", chars "repo"]]

/-- A clone environment whose `git clone` fails (unreachable remote). -/
def cloneEnvDown : CloneEnv where
  cloneOk := fun _ => false
  cloneFiles := fun _ => []
  cloneDirs := fun _ => []

/-- A helper environment knowing only the project `curl`, whose Dockerfile
clones the curl repository; the matching token ends its line, so it
carries the trailing newline. -/
def inferEnvEx : InferEnv where
  projectExists := fun n => decide (n = chars "curl")
  dockerfile := fun _ => chars "FROM base\nRUN git clone https://github.com/curl/curl.git\nWORKDIR curl\n"

/-! ## Helper lemmas -/

/-- Unfolding equation of the search loop. -/
theorem searchLoop_eq (oracle : Nat → Verdict) (low high calls : Nat) :
    searchLoop oracle low high calls =
      if _h : high - low < 2 then .resolved low high calls
      else
        match oracle ((low + high) / 2) with
        | .bugPresent => searchLoop oracle low ((low + high) / 2) (calls + 1)
        | .bugAbsent => searchLoop oracle ((low + high) / 2) high (calls + 1)
        | .inconclusive => .aborted (calls + 1) := by
  rw [searchLoop]

/-- The loop guard of `searchLoop` is exactly the failure condition of
`midpoint`. -/
theorem searchLoop_guard_iff_midpoint (low high : Nat) :
    high - low < 2 ↔ midpoint low high = .error .emptyRange := by
  unfold midpoint
  split <;> simp_all

/-- Every list is a prefix of itself, in the boolean sense. -/
theorem isPrefixOf_self (l : List Char) : l.isPrefixOf l = true := by
  induction l with
  | nil => rfl
  | cons c cs ih => simp [List.isPrefixOf, ih]

/-- Characterization of `List.find?`: it returns `b` exactly when `b` is
the first element of the list satisfying the predicate. -/
theorem find?_eq_some_split {α : Type} (p : α → Bool) (l : List α) (b : α) :
    l.find? p = some b ↔
      p b = true ∧ ∃ l1 l2, l = l1 ++ b :: l2 ∧ ∀ a ∈ l1, p a = false := by
  induction l with
  | nil => simp
  | cons x xs ih =>
    by_cases hx : p x = true
    · rw [List.find?_cons_of_pos _ hx]
      constructor
      · intro h
        injection h with h
        subst h
        exact ⟨hx, [], xs, rfl, by simp⟩
      · rintro ⟨hb, l1, l2, heq, hall⟩
        cases l1 with
        | nil =>
          injection heq with h1 _
          rw [h1]
        | cons a l1' =>
          injection heq with h1 _
          have ha : p a = false := hall a (by simp)
          rw [h1, ha] at hx
          cases hx
    · have hx' : p x = false := by simpa using hx
      rw [List.find?_cons_of_neg _ (by simp [hx'])]
      rw [ih]
      constructor
      · rintro ⟨hb, l1, l2, heq, hall⟩
        refine ⟨hb, x :: l1, l2, by rw [heq]; rfl, ?_⟩
        intro a ha
        rcases List.mem_cons.mp ha with h | h
        · rw [h]; exact hx'
        · exact hall a h
      · rintro ⟨hb, l1, l2, heq, hall⟩
        cases l1 with
        | nil =>
          injection heq with h1 _
          rw [← h1, hx'] at hb
          cases hb
        | cons a l1' =>
          injection heq with _ h2
          exact ⟨hb, l1', l2, h2, fun a' ha' => hall a' (by simp [ha'])⟩

/-- After the cleanup prelude the scratch path exists neither as a file nor
as a directory (assuming no path is a file and a directory at once), so
the subsequent `os.mkdir` cannot raise. -/
theorem cleanupScratch_clears (fs : FS)
    (hwf : ∀ p, ¬(isfile fs p = true ∧ isdir fs p = true)) :
    isfile (cleanupScratch fs) tmpGitPath = false
      ∧ isdir (cleanupScratch fs) tmpGitPath = false := by
  by_cases h1 : isfile fs tmpGitPath = true
  · have h2 : isdir fs tmpGitPath = false := by
      have hw := hwf tmpGitPath
      revert hw
      cases isdir fs tmpGitPath <;> simp [h1]
    have hc : cleanupScratch fs
        = { fs with files := fs.files.filter (fun q => !decide (q = tmpGitPath)) } := by
      simp [cleanupScratch, remove, h1]
    rw [hc]
    refine ⟨?_, by simpa [isdir] using h2⟩
    simp [isfile, List.mem_filter]
  · have h1' : isfile fs tmpGitPath = false := by simpa using h1
    by_cases h2 : isdir fs tmpGitPath = true
    · have hc : cleanupScratch fs
          = { files := fs.files.filter (fun q => !tmpGitPath.isPrefixOf q),
              dirs := fs.dirs.filter (fun q => !tmpGitPath.isPrefixOf q) } := by
        simp [cleanupScratch, remove, h1', h2]
      rw [hc]
      constructor
      · simp [isfile, List.mem_filter, isPrefixOf_self]
      · simp [isdir, List.mem_filter, isPrefixOf_self]
    · have h2' : isdir fs tmpGitPath = false := by simpa using h2
      have hc : cleanupScratch fs = fs := by
        simp [cleanupScratch, remove, h1', h2']
      rw [hc]
      exact ⟨h1', h2'⟩

/-- Invariant of the search loop: with a monotonic oracle whose boundary
`b` lies inside the current bracket, the loop resolves to the bracket
`(b, b + 1)` after at most `clog 2 (high - low)` further oracle calls. -/
theorem searchLoop_resolves (oracle : Nat → Verdict) (b : Nat) :
    ∀ d low high calls, high - low ≤ d → low ≤ b → b < high →
      (∀ i, low ≤ i → i ≤ b → oracle i = .bugAbsent) →
      (∀ i, b < i → i ≤ high → oracle i = .bugPresent) →
      ∃ k, searchLoop oracle low high calls = .resolved b (b + 1) (calls + k)
        ∧ k ≤ Nat.clog 2 (high - low) := by
  intro d
  induction d with
  | zero =>
    intro low high calls hd h1 h2 _ _
    omega
  | succ n ih =>
    intro low high calls hd h1 h2 habs hpres
    by_cases hsmall : high - low < 2
    · have hlow : low = b := by omega
      have hhigh : high = b + 1 := by omega
      refine ⟨0, ?_, by omega⟩
      rw [searchLoop_eq, dif_pos hsmall, hlow, hhigh]
      rfl
    · have hrec : Nat.clog 2 (high - low)
          = Nat.clog 2 ((high - low + 1) / 2) + 1 := by
        have h21 : high - low + 2 - 1 = high - low + 1 := by omega
        have := @Nat.clog_of_two_le 2 (high - low) (by norm_num) (by omega)
        rw [h21] at this
        exact this
      by_cases hmb : (low + high) / 2 ≤ b
      · have ho : oracle ((low + high) / 2) = .bugAbsent := habs _ (by omega) hmb
        obtain ⟨k, hk, hkle⟩ := ih ((low + high) / 2) high (calls + 1) (by omega) hmb h2
          (fun i hi1 hi2 => habs i (by omega) hi2) hpres
        refine ⟨k + 1, ?_, ?_⟩
        · have hcalls : calls + 1 + k = calls + (k + 1) := by omega
          rw [searchLoop_eq, dif_neg hsmall, ho]
          show searchLoop oracle ((low + high) / 2) high (calls + 1)
              = RunResult.resolved b (b + 1) (calls + (k + 1))
          rw [hk, hcalls]
        · have hmono := Nat.clog_mono_right 2
            (show high - (low + high) / 2 ≤ (high - low + 1) / 2 by omega)
          omega
      · have ho : oracle ((low + high) / 2) = .bugPresent := hpres _ (by omega) (by omega)
        obtain ⟨k, hk, hkle⟩ := ih low ((low + high) / 2) (calls + 1) (by omega) h1 (by omega)
          (fun i hi1 hi2 => habs i hi1 hi2) (fun i hi1 hi2 => hpres i hi1 (by omega))
        refine ⟨k + 1, ?_, ?_⟩
        · have hcalls : calls + 1 + k = calls + (k + 1) := by omega
          rw [searchLoop_eq, dif_neg hsmall, ho]
          show searchLoop oracle low ((low + high) / 2) (calls + 1)
              = RunResult.resolved b (b + 1) (calls + (k + 1))
          rw [hk, hcalls]
        · have hmono := Nat.clog_mono_right 2
            (show (low + high) / 2 - low ≤ (high - low + 1) / 2 by omega)
          omega

/-! ## Claim theorems -/

/-- C1: for every valid range `(old, new)` of ancestry-distance
`N = new - old` and every monotonic oracle with boundary `b` (commits
`old..b` are `BugAbsent`, commits `b+1..new` are `BugPresent`), the engine
resolves to exactly that boundary — the bracket collapses to
`(b, b + 1)`, so the fix-direction result is the boundary `b` itself and
the introduced-direction result is its successor — invoking the oracle at
most `clog 2 N + 1` times. -/
theorem engine_converges (oracle : Nat → Verdict) (old new b : Nat)
    (h1 : old ≤ b) (h2 : b < new)
    (habs : ∀ i, old ≤ i → i ≤ b → oracle i = .bugAbsent)
    (hpres : ∀ i, b < i → i ≤ new → oracle i = .bugPresent) :
    ∃ k, searchLoop oracle old new 0 = .resolved b (b + 1) k
      ∧ k ≤ Nat.clog 2 (new - old) + 1
      ∧ resolvedCommit .fixed (searchLoop oracle old new 0) = some b
      ∧ resolvedCommit .introduced (searchLoop oracle old new 0) = some (b + 1) := by
  obtain ⟨k, hk, hkle⟩ :=
    searchLoop_resolves oracle b (new - old) old new 0 le_rfl h1 h2 habs hpres
  rw [Nat.zero_add] at hk
  exact ⟨k, hk, by omega, by rw [hk]; rfl, by rw [hk]; rfl⟩

/-- Witness for C1 on the eight-commit range `0..8` with boundary `3`:
the engine resolves the bracket `(3, 4)` within `clog 2 8 + 1 = 4` oracle
calls. -/
theorem engine_converges_witness :
    ∃ k, searchLoop oracleEx 0 8 0 = .resolved 3 4 k
      ∧ k ≤ Nat.clog 2 8 + 1
      ∧ resolvedCommit .fixed (searchLoop oracleEx 0 8 0) = some 3
      ∧ resolvedCommit .introduced (searchLoop oracleEx 0 8 0) = some 4 :=
  engine_converges oracleEx 0 8 3 (by omega) (by omega)
    (fun i _ hi => by simp only [oracleEx, if_pos hi])
    (fun i hi _ => by simp only [oracleEx, if_neg (by omega : ¬ i ≤ 3)])

/-- C3: for every pair of commits, `midpoint` fails with `EmptyRangeError`
exactly when no commit lies strictly between `low` and `high` (the range
has collapsed to adjacent commits), and otherwise returns a commit
strictly between them that is topologically equidistant by commit count in
the standard-bisection sense: its two distances differ by at most one and
are equal whenever the range length is even. -/
theorem midpoint_spec (low high : Nat) :
    (midpoint low high = .error .emptyRange ↔ ¬∃ m, low < m ∧ m < high)
    ∧ ∀ m, midpoint low high = .ok m →
        low < m ∧ m < high ∧ m - low ≤ high - m ∧ high - m ≤ m - low + 1
          ∧ (2 ∣ high - low → m - low = high - m) := by
  by_cases h : high - low < 2
  · constructor
    · have hmid : midpoint low high = .error .emptyRange := by simp [midpoint, h]
      rw [hmid]
      exact iff_of_true rfl (by rintro ⟨m, hm1, hm2⟩; omega)
    · intro m hm
      simp [midpoint, h] at hm
  · constructor
    · simp only [midpoint, if_neg h]
      exact iff_of_false (by simp) (fun hno => hno ⟨low + 1, by omega, by omega⟩)
    · intro m hm
      simp only [midpoint, if_neg h, Except.ok.injEq] at hm
      refine ⟨by omega, by omega, by omega, by omega, fun hdvd => by omega⟩

/-- Witness for C3 at the concrete range `(0, 6)`: the midpoint is `3`,
strictly between and exactly equidistant since the range length is even. -/
theorem midpoint_spec_witness :
    0 < 3 ∧ 3 < 6 ∧ 3 - 0 ≤ 6 - 3 ∧ 6 - 3 ≤ 3 - 0 + 1 ∧ (2 ∣ 6 - 0 → 3 - 0 = 6 - 3) :=
  (midpoint_spec 0 6).2 3 rfl

/-- C9: `remove` raises `ValueError` exactly when the path names neither an
existing file nor an existing directory; an existing file is deleted (the
other files and all directories untouched), an existing directory is
deleted together with everything under it, and both cases return
normally. -/
theorem remove_spec (fs : FS) (p : Path) :
    (remove fs p = .error .valueError ↔ isfile fs p = false ∧ isdir fs p = false)
    ∧ (isfile fs p = true → ∃ fs', remove fs p = .ok fs'
        ∧ p ∉ fs'.files ∧ fs'.dirs = fs.dirs
        ∧ ∀ q ∈ fs.files, q ≠ p → q ∈ fs'.files)
    ∧ (isfile fs p = false → isdir fs p = true → ∃ fs', remove fs p = .ok fs'
        ∧ ∀ q, p.isPrefixOf q = true → q ∉ fs'.files ∧ q ∉ fs'.dirs) := by
  refine ⟨?_, ?_, ?_⟩
  · by_cases h1 : isfile fs p = true
    · simp [remove, h1]
    · have h1' : isfile fs p = false := by simpa using h1
      by_cases h2 : isdir fs p = true
      · simp [remove, h1', h2]
      · have h2' : isdir fs p = false := by simpa using h2
        simp [remove, h1', h2']
  · intro h1
    refine ⟨{ fs with files := fs.files.filter (fun q => !decide (q = p)) },
      by simp [remove, h1], ?_, rfl, ?_⟩
    · simp [List.mem_filter]
    · intro q hq hne
      simp [List.mem_filter, hq, hne]
  · intro h1 h2
    refine ⟨⟨fs.files.filter (fun q => !p.isPrefixOf q),
        fs.dirs.filter (fun q => !p.isPrefixOf q)⟩,
      by simp [remove, h1, h2], ?_⟩
    intro q hpre
    constructor
    · intro hq
      have := (List.mem_filter.mp hq).2
      rw [hpre] at this
      simp at this
    · intro hq
      have := (List.mem_filter.mp hq).2
      rw [hpre] at this
      simp at this

/-- Witness for C9: removing the existing file `tmp_git/junk.txt` from the
concrete filesystem succeeds and deletes exactly that file. -/
theorem remove_spec_witness :
    ∃ fs', remove fsEx [chars "tmp_git", chars "junk.txt"] = .ok fs'
      ∧ [chars "tmp_git", chars "junk.txt"] ∉ fs'.files ∧ fs'.dirs = fsEx.dirs
      ∧ ∀ q ∈ fsEx.files, q ≠ [chars "tmp_git", chars "junk.txt"] → q ∈ fs'.files :=
  (remove_spec fsEx [chars "tmp_git", chars "junk.txt"]).2.1 (by decide)

/-- C8: whenever `run_command_in_repo` returns normally, the final working
directory equals the working directory in effect before the call — the
chdir into the repository is transient and undone before returning. -/
theorem run_command_in_repo_cwd (env : GitEnv) (command : List PyStr)
    (project_name cwd : PyStr) (res : PyStr × Option PyStr) (cwd' : PyStr)
    (h : run_command_in_repo env command project_name cwd = .ok (res, cwd')) :
    cwd' = cwd := by
  by_cases hd : env.dirs (repoDir project_name) = true
  · simp only [run_command_in_repo, hd, if_true] at h
    cases hdec : pyDecodeAscii (env.stdout command (repoDir project_name)) with
    | ok s =>
      rw [hdec] at h
      simp only [Except.ok.injEq, Prod.mk.injEq] at h
      exact h.2.symm
    | error e =>
      rw [hdec] at h
      cases h
  · have hd' : env.dirs (repoDir project_name) = false := by simpa using hd
    simp [run_command_in_repo, hd'] at h

/-- Witness for C8 at a concrete environment and starting directory. -/
theorem run_command_in_repo_cwd_witness : chars "/home/user" = chars "/home/user" :=
  run_command_in_repo_cwd envLoud [chars "git", chars "status"] (chars "curl")
    (chars "/home/user") (chars "ok", none) (chars "/home/user") rfl

/-- C5 (amended): `run_command_in_repo` executes the command with the
working copy as current directory and captures its stdout (ascii-decoded
and newline-stripped), but nothing else: the stderr slot of the returned
pair is always `None` because stderr is not piped, no exit status is
returned, and the call returns normally whatever the exit status and
stderr of the command were. -/
theorem run_command_in_repo_spec (env : GitEnv) (command : List PyStr)
    (project_name cwd : PyStr)
    (hdir : env.dirs (repoDir project_name) = true)
    (hascii : asciiOK (env.stdout command (repoDir project_name)) = true) :
    run_command_in_repo env command project_name cwd =
      .ok ((pyStripChar '\n'
        ((env.stdout command (repoDir project_name)).map Char.ofNat), none), cwd) := by
  simp [run_command_in_repo, hdir, pyDecodeAscii, hascii]

/-- Witness for C5's amended theorem at a concrete loud environment. -/
theorem run_command_in_repo_spec_witness :
    run_command_in_repo envLoud [chars "git", chars "status"] (chars "curl")
        (chars "/home/user")
      = .ok ((pyStripChar '\n' ((envLoud.stdout [chars "git", chars "status"]
          (repoDir (chars "curl"))).map Char.ofNat), none), chars "/home/user") :=
  run_command_in_repo_spec envLoud [chars "git", chars "status"] (chars "curl")
    (chars "/home/user") rfl rfl

/-- C5 as stated is refuted at this input: the command writes `boom` to its
stderr and exits with status `1`, yet the value returned carries `none` in
the stderr slot — the stderr text is nowhere in the return value — and no
exit status at all; only stdout is captured. -/
theorem run_command_in_repo_stderr_cex :
    run_command_in_repo envLoud [chars "git", chars "status"] (chars "curl")
        (chars "/home/user")
      = .ok ((chars "ok", none), chars "/home/user")
      ∧ envLoud.stderrOut [chars "git", chars "status"] (repoDir (chars "curl"))
          = asciiOf "boom"
      ∧ asciiOf "boom" ≠ []
      ∧ envLoud.exitCode [chars "git", chars "status"] (repoDir (chars "curl")) = 1 :=
  ⟨rfl, rfl, by decide, rfl⟩

/-- C4: `commit_exists` is total and fails closed.  Under the documented
precondition that the local clone exists (and the ascii-decodable stdout
the script assumes), it returns an ordinary boolean for every ref string
and never raises; whenever git signals a missing or malformed ref — its
error text goes to the uncaptured stderr, so the captured stdout is empty
or carries the scanned markers — the result is `ok false`, and an
all-space ref yields `ok false` without running git at all. -/
theorem commit_exists_fails_closed (env : GitEnv) (commit project_name cwd : PyStr)
    (hdir : env.dirs (repoDir project_name) = true)
    (hascii : asciiOK (env.stdout (branchContainsCmd commit) (repoDir project_name)) = true) :
    (∃ b, commit_exists env commit project_name cwd = .ok b)
    ∧ (∀ out e c,
        run_command_in_repo env (branchContainsCmd commit) project_name cwd = .ok ((out, e), c) →
        (isInfixB (chars "error: no such commit") out
          || isInfixB (chars "error: malformed object name") out
          || out.isEmpty) = true →
        commit_exists env commit project_name cwd = .ok false)
    ∧ (pyStripChar ' ' commit = [] → commit_exists env commit project_name cwd = .ok false) := by
  have hrun : run_command_in_repo env (branchContainsCmd commit) project_name cwd =
      .ok ((pyStripChar '\n'
        ((env.stdout (branchContainsCmd commit) (repoDir project_name)).map Char.ofNat),
        none), cwd) := by
    simp [run_command_in_repo, hdir, pyDecodeAscii, hascii]
  refine ⟨?_, ?_, ?_⟩
  · by_cases hc : pyStripChar ' ' commit = []
    · exact ⟨false, by simp [commit_exists, hc]⟩
    · simp only [commit_exists, hc, if_false, hrun]
      by_cases hm : (isInfixB (chars "error: no such commit")
          (pyStripChar '\n'
            ((env.stdout (branchContainsCmd commit) (repoDir project_name)).map Char.ofNat))
        || isInfixB (chars "error: malformed object name")
          (pyStripChar '\n'
            ((env.stdout (branchContainsCmd commit) (repoDir project_name)).map Char.ofNat))
        || (pyStripChar '\n'
            ((env.stdout (branchContainsCmd commit) (repoDir project_name)).map Char.ofNat)).isEmpty)
          = true
      · exact ⟨false, by simp [hm]⟩
      · exact ⟨true, by simp [hm]⟩
  · intro out e c hout hmark
    rw [hrun] at hout
    simp only [Except.ok.injEq, Prod.mk.injEq] at hout
    obtain ⟨⟨hout1, -⟩, -⟩ := hout
    by_cases hc : pyStripChar ' ' commit = []
    · simp [commit_exists, hc]
    · simp only [commit_exists, hc, if_false, hrun]
      rw [← hout1] at hmark
      simp [hmark]
  · intro hc
    simp [commit_exists, hc]

/-- Witness for C4: the unknown ref `zzz`.  Git prints
`error: malformed object name` to the uncaptured stderr and exits 129,
stdout stays empty, and `commit_exists` returns an ordinary `false`. -/
theorem commit_exists_fails_closed_witness :
    commit_exists envBadRef (chars "zzz") (chars "curl") [] = .ok false :=
  (commit_exists_fails_closed envBadRef (chars "zzz") (chars "curl") [] rfl rfl).2.1
    [] none [] rfl rfl

/-- C2 (amended): the commit-SHA validation of `main` checks `commit_new`
first, then `commit_old`, and its outcomes are characterized exactly: it
reports the new commit iff its existence check returns false, reports the
old commit iff the new one exists and the old one does not, and succeeds
iff both existence checks return true — nothing more.  It performs no
ancestry check, so success guarantees neither that `commit_old` is an
ancestor of `commit_new` nor that the search interval is non-empty. -/
theorem validate_commits_spec (env : GitEnv) (commit_new commit_old project_name cwd : PyStr) :
    (validate_commits env commit_new commit_old project_name cwd = .ok .unknownNew
      ↔ commit_exists env commit_new project_name cwd = .ok false)
    ∧ (validate_commits env commit_new commit_old project_name cwd = .ok .unknownOld
      ↔ commit_exists env commit_new project_name cwd = .ok true
          ∧ commit_exists env commit_old project_name cwd = .ok false)
    ∧ (validate_commits env commit_new commit_old project_name cwd = .ok .valid
      ↔ commit_exists env commit_new project_name cwd = .ok true
          ∧ commit_exists env commit_old project_name cwd = .ok true) := by
  cases hn : commit_exists env commit_new project_name cwd with
  | error e => refine ⟨?_, ?_, ?_⟩ <;> simp [validate_commits, hn]
  | ok bn =>
    cases bn with
    | false => refine ⟨?_, ?_, ?_⟩ <;> simp [validate_commits, hn]
    | true =>
      cases ho : commit_exists env commit_old project_name cwd with
      | error e => refine ⟨?_, ?_, ?_⟩ <;> simp [validate_commits, hn, ho]
      | ok bo =>
        cases bo with
        | false => refine ⟨?_, ?_, ?_⟩ <;> simp [validate_commits, hn, ho]
        | true => refine ⟨?_, ?_, ?_⟩ <;> simp [validate_commits, hn, ho]

/-- Witness for C2's amended theorem: `commit_new` exists but `commit_old`
does not, so validation reports the old commit. -/
theorem validate_commits_spec_witness :
    validate_commits envOnlyNew (chars "bbb") (chars "aaa") (chars "curl") []
      = .ok .unknownOld :=
  ((validate_commits_spec envOnlyNew (chars "bbb") (chars "aaa") (chars "curl") []).2.1).mpr
    ⟨rfl, rfl⟩

/-- C2 as stated is refuted at this input: in a realizable repository
(`aaa` and `bbb` on the two merged side branches of `master`) both
existence checks pass — so the claim's `UnknownCommit` clauses do not
fire — `commit_old` is not an ancestor of `commit_new`, and yet validation
succeeds: the code has no `NotAncestor` outcome and never queries
ancestry.  The last conjunct shows the non-empty-interval guarantee also
fails: validation accepts `commit_old = commit_new`, a collapsed
interval. -/
theorem validate_commits_no_ancestor_cex :
    commit_exists envNoAncestor (chars "bbb") (chars "curl") [] = .ok true
      ∧ commit_exists envNoAncestor (chars "aaa") (chars "curl") [] = .ok true
      ∧ envNoAncestor.ancestor (chars "aaa") (chars "bbb") = false
      ∧ validate_commits envNoAncestor (chars "bbb") (chars "aaa") (chars "curl") []
          = .ok .valid
      ∧ validate_commits envNoAncestor (chars "aaa") (chars "aaa") (chars "curl") []
          = .ok .valid :=
  ⟨rfl, rfl, rfl, rfl, rfl⟩

/-- C7: `infer_main_repo` has exactly three outcomes — it raises
`ProjectNotFoundException` exactly when no project of that name exists, it
raises `NoRepoFoundException` exactly when the project exists but no
Dockerfile token contains `'/' + project_name + '.git'`, and otherwise it
returns such a token of the Dockerfile. -/
theorem infer_main_repo_outcomes (env : InferEnv) (project_name : PyStr) :
    (infer_main_repo env project_name = .error .projectNotFound
      ↔ env.projectExists project_name = false)
    ∧ (infer_main_repo env project_name = .error .noRepoFound
      ↔ env.projectExists project_name = true
          ∧ findRepoToken (env.dockerfile project_name) project_name = none)
    ∧ (∀ u, infer_main_repo env project_name = .ok u
      ↔ env.projectExists project_name = true
          ∧ findRepoToken (env.dockerfile project_name) project_name = some u)
    ∧ (∀ u, infer_main_repo env project_name = .ok u →
        isInfixB (repoNeedle project_name) u = true) := by
  by_cases hp : env.projectExists project_name = true
  · cases hf : findRepoToken (env.dockerfile project_name) project_name with
    | some tok =>
      refine ⟨by simp [infer_main_repo, hp, hf], by simp [infer_main_repo, hp, hf],
        by simp [infer_main_repo, hp, hf], ?_⟩
      intro u hu
      simp only [infer_main_repo, hp, if_true, hf] at hu
      injection hu with hu
      subst hu
      exact List.find?_some (by simpa [findRepoToken] using hf)
    | none =>
      exact ⟨by simp [infer_main_repo, hp, hf], by simp [infer_main_repo, hp, hf],
        by simp [infer_main_repo, hp, hf], by simp [infer_main_repo, hp, hf]⟩
  · have hp' : env.projectExists project_name = false := by simpa using hp
    exact ⟨by simp [infer_main_repo, hp'], by simp [infer_main_repo, hp'],
      by simp [infer_main_repo, hp'], by simp [infer_main_repo, hp']⟩

/-- Witness for C7: an unknown project name is rejected with
`ProjectNotFoundException`. -/
theorem infer_main_repo_outcomes_witness :
    infer_main_repo inferEnvEx (chars "aspell") = .error .projectNotFound :=
  ((infer_main_repo_outcomes inferEnvEx (chars "aspell")).1).mpr rfl

/-- C10: for an existing project, `infer_main_repo` returns `tok` exactly
when `tok` is the first token — lines of the Dockerfile scanned top to
bottom, each line split on single spaces left to right — that contains the
substring `'/' + project_name + '.git'`; the result is a token of the
Dockerfile text (tokens ending a line keep their trailing newline) and is
uniquely determined. -/
theorem infer_main_repo_first_token (env : InferEnv) (project_name tok : PyStr)
    (hp : env.projectExists project_name = true) :
    infer_main_repo env project_name = .ok tok ↔
      isInfixB (repoNeedle project_name) tok = true
        ∧ ∃ pre post, dockerTokens (env.dockerfile project_name) = pre ++ tok :: post
            ∧ ∀ t ∈ pre, isInfixB (repoNeedle project_name) t = false := by
  have h1 : infer_main_repo env project_name = .ok tok
      ↔ findRepoToken (env.dockerfile project_name) project_name = some tok := by
    cases hf : findRepoToken (env.dockerfile project_name) project_name with
    | some t => simp [infer_main_repo, hp, hf]
    | none => simp [infer_main_repo, hp, hf]
  rw [h1, findRepoToken, find?_eq_some_split]

/-- Witness for C10: in the concrete Dockerfile the clone URL ends its
line, so the returned token is `https://github.com/curl/curl.git` followed
by the newline, and every earlier token lacks the needle. -/
theorem infer_main_repo_first_token_witness :
    isInfixB (repoNeedle (chars "curl")) (chars "https://github.com/curl/curl.git\n") = true
      ∧ ∃ pre post, dockerTokens (inferEnvEx.dockerfile (chars "curl"))
            = pre ++ chars "https://github.com/curl/curl.git\n" :: post
          ∧ ∀ t ∈ pre, isInfixB (repoNeedle (chars "curl")) t = false :=
  (infer_main_repo_first_token inferEnvEx (chars "curl")
    (chars "https://github.com/curl/curl.git\n") rfl).mp rfl

/-- C6 (amended): `clone_repo_local` never fails because the destination
exists — it first deletes any existing `tmp_git` (a file, or a directory
with all its contents) and recreates it empty, then clones; the run fails
(with `CalledProcessError` from `check_call`) exactly when the git clone
command itself fails, e.g. for an unreachable remote.  After a successful
run the only files under `tmp_git` are the ones the clone created: a
pre-existing non-empty destination is silently replaced. -/
theorem clone_repo_local_spec (env : CloneEnv) (repo_name : PyStr) (fs : FS)
    (hwf : ∀ p, ¬(isfile fs p = true ∧ isdir fs p = true)) :
    (env.cloneOk repo_name = false →
      clone_repo_local env repo_name fs = .error .calledProcessError)
    ∧ (env.cloneOk repo_name = true →
        ∃ fs', clone_repo_local env repo_name fs = .ok fs')
    ∧ (env.cloneOk repo_name = true → isdir fs tmpGitPath = true →
        ∃ fs', clone_repo_local env repo_name fs = .ok fs'
          ∧ ∀ q, tmpGitPath.isPrefixOf q = true → q ∈ fs'.files →
              q ∈ env.cloneFiles repo_name) := by
  obtain ⟨hf, hd⟩ := cleanupScratch_clears fs hwf
  have hmk : mkdir (cleanupScratch fs) tmpGitPath
      = .ok { cleanupScratch fs with dirs := tmpGitPath :: (cleanupScratch fs).dirs } := by
    simp [mkdir, hf, hd]
  refine ⟨fun h => ?_, fun h => ?_, fun h hdir => ?_⟩
  · simp [clone_repo_local, hmk, h]
  · refine ⟨⟨env.cloneFiles repo_name ++ (cleanupScratch fs).files,
      env.cloneDirs repo_name ++ tmpGitPath :: (cleanupScratch fs).dirs⟩, ?_⟩
    simp [clone_repo_local, hmk, h]
  · have hfile : isfile fs tmpGitPath = false := by
      have hw := hwf tmpGitPath
      revert hw
      cases isfile fs tmpGitPath <;> simp [hdir]
    have hclean : cleanupScratch fs
        = ⟨fs.files.filter (fun q => !tmpGitPath.isPrefixOf q),
            fs.dirs.filter (fun q => !tmpGitPath.isPrefixOf q)⟩ := by
      simp [cleanupScratch, remove, hfile, hdir]
    refine ⟨⟨env.cloneFiles repo_name ++ (cleanupScratch fs).files,
      env.cloneDirs repo_name ++ tmpGitPath :: (cleanupScratch fs).dirs⟩, ?_, ?_⟩
    · simp [clone_repo_local, hmk, h]
    intro q hpre hq
    rw [hclean] at hq
    rcases List.mem_append.mp hq with hq1 | hq2
    · exact hq1
    · exfalso
      have := (List.mem_filter.mp hq2).2
      rw [hpre] at this
      simp at this

/-- Witness for C6's amended theorem: cloning over the concrete non-empty
`tmp_git` succeeds and every surviving file under `tmp_git` was created by
the clone. -/
theorem clone_repo_local_spec_witness :
    ∃ fs', clone_repo_local cloneEnvEx (chars "https://github.com/curl/curl.git") fsEx
        = .ok fs'
      ∧ ∀ q, tmpGitPath.isPrefixOf q = true → q ∈ fs'.files →
          q ∈ cloneEnvEx.cloneFiles (chars "https://github.com/curl/curl.git") :=
  (clone_repo_local_spec cloneEnvEx (chars "https://github.com/curl/curl.git") fsEx
    (by
      rintro p ⟨h1, h2⟩
      simp [isfile, fsEx] at h1
      simp [isdir, fsEx] at h2
      subst h1
      revert h2
      decide)).2.2 rfl (by decide)

/-- C6 as stated is refuted at this input: the destination `tmp_git`
already exists and is non-empty — it holds `tmp_git/junk.txt` — yet
`clone_repo_local` succeeds instead of failing with a clone error, and the
old file is gone afterwards: the destination is silently replaced. -/
theorem clone_repo_local_replaces_cex :
    isdir fsEx tmpGitPath = true
      ∧ [chars "tmp_git", chars "junk.txt"] ∈ fsEx.files
      ∧ ∃ fs', clone_repo_local cloneEnvEx (chars "https://github.com/curl/curl.git") fsEx
            = .ok fs'
          ∧ [chars "tmp_git", chars "junk.txt"] ∉ fs'.files :=
  ⟨by decide, by decide,
    ⟨⟨[[chars "tmp_git", chars "repo", chars "README"]],
        [[chars "tmp_git", chars "repo"], [chars "tmp_git"], []]⟩,
      rfl, by decide⟩⟩

end Bisector
